import Mathlib

/-!
Verification development for the korangar player-camera module
(`src/graphics/cameras/player.rs`), its `SmoothedValue` dependency, and the
`ScrollView` container (`src/interface/elements/containers/scroll.rs`).

Scalars (`f32`/`f64` in the source) are modelled as real numbers; `cgmath`
matrices are modelled as `Matrix (Fin 4) (Fin 4) ℝ` in the usual row/column
mathematical convention (cgmath stores matrices column-major, so a cgmath
`Matrix4::new(c0r0, c0r1, ...)` call lists columns; the definitions below
transcribe those columns into rows of the mathematical matrix).
-/

noncomputable section

open scoped Classical

/-- A 2-component vector, mirroring cgmath `Vector2<f32>`. -/
structure Vec2 where
  x : ℝ
  y : ℝ

/-- A 3-component vector or point, mirroring cgmath `Vector3<f32>` / `Point3<f32>`. -/
structure Vec3 where
  x : ℝ
  y : ℝ
  z : ℝ

/-- A 4-component vector, mirroring cgmath `Vector4<f32>`. -/
structure Vec4 where
  x : ℝ
  y : ℝ
  z : ℝ
  w : ℝ

def Vec2.sub (a b : Vec2) : Vec2 := ⟨a.x - b.x, a.y - b.y⟩

def Vec3.sub (a b : Vec3) : Vec3 := ⟨a.x - b.x, a.y - b.y, a.z - b.z⟩

def Vec3.dot (a b : Vec3) : ℝ := a.x * b.x + a.y * b.y + a.z * b.z

/-- cgmath `Vector3::cross`. -/
def Vec3.cross (a b : Vec3) : Vec3 :=
  ⟨a.y * b.z - a.z * b.y, a.z * b.x - a.x * b.z, a.x * b.y - a.y * b.x⟩

/-- cgmath `InnerSpace::magnitude`: square root of the dot product with itself. -/
def Vec3.magnitude (a : Vec3) : ℝ := Real.sqrt (a.dot a)

/-- cgmath `InnerSpace::normalize`: `self * (1 / magnitude)`. -/
def Vec3.normalize (a : Vec3) : Vec3 :=
  ⟨a.x * (1 / a.magnitude), a.y * (1 / a.magnitude), a.z * (1 / a.magnitude)⟩

/-- cgmath `MetricSpace::distance` for points: magnitude of the difference. -/
def Vec3.distance (a b : Vec3) : ℝ := (b.sub a).magnitude

/-- A 4×4 matrix over the reals, mirroring cgmath `Matrix4<f32>`. -/
abbrev Matrix4 := Matrix (Fin 4) (Fin 4) ℝ

/-- cgmath `SquareMatrix::from_value`: a diagonal matrix with the given value. -/
def Matrix4.from_value (v : ℝ) : Matrix4 := Matrix.diagonal (fun _ => v)

/-- cgmath `Matrix4::from_translation`. -/
def from_translation (t : Vec3) : Matrix4 :=
  !![1, 0, 0, t.x;
     0, 1, 0, t.y;
     0, 0, 1, t.z;
     0, 0, 0, 1]

/-- cgmath `Matrix4::from_angle_x`. -/
def from_angle_x (θ : ℝ) : Matrix4 :=
  !![1, 0, 0, 0;
     0, Real.cos θ, -Real.sin θ, 0;
     0, Real.sin θ, Real.cos θ, 0;
     0, 0, 0, 1]

/-- cgmath `Matrix4::from_angle_y`. -/
def from_angle_y (θ : ℝ) : Matrix4 :=
  !![Real.cos θ, 0, Real.sin θ, 0;
     0, 1, 0, 0;
     -Real.sin θ, 0, Real.cos θ, 0;
     0, 0, 0, 1]

/-- cgmath `Matrix4::from_angle_z`. -/
def from_angle_z (θ : ℝ) : Matrix4 :=
  !![Real.cos θ, -Real.sin θ, 0, 0;
     Real.sin θ, Real.cos θ, 0, 0;
     0, 0, 1, 0;
     0, 0, 0, 1]

/-- cgmath `Matrix4::from_nonuniform_scale`. -/
def from_nonuniform_scale (sx sy sz : ℝ) : Matrix4 :=
  !![sx, 0, 0, 0;
     0, sy, 0, 0;
     0, 0, sz, 0;
     0, 0, 0, 1]

/-- cgmath `perspective(fovy, aspect, near, far)`: OpenGL-style perspective
projection, with `f = cot (fovy / 2) = (tan (fovy / 2))⁻¹`. -/
def perspective (fovy aspect near far : ℝ) : Matrix4 :=
  let f := (Real.tan (fovy / 2))⁻¹
  !![f / aspect, 0, 0, 0;
     0, f, 0, 0;
     0, 0, (far + near) / (near - far), 2 * far * near / (near - far);
     0, 0, -1, 0]

/-- cgmath `Matrix4::look_at_rh(eye, center, up)`. -/
def look_at_rh (eye center up : Vec3) : Matrix4 :=
  let f := (center.sub eye).normalize
  let s := (f.cross up).normalize
  let u := s.cross f
  !![s.x, s.y, s.z, -(eye.dot s);
     u.x, u.y, u.z, -(eye.dot u);
     -f.x, -f.y, -f.z, eye.dot f;
     0, 0, 0, 1]

/-- Modelled from the spec: the `SmoothedValue` struct itself is not among the
provided sources (only its callers in `player.rs` are). Per §3/§4.1 of the
specification it holds the value consumers read (`current`), the target it
approaches (`desired`), and the smoothing parameters passed to `new`. -/
structure SmoothedValue where
  current : ℝ
  desired : ℝ
  smoothing_factor : ℝ
  rate : ℝ

/-- Modelled from the spec: `new(initial, smoothing_factor, rate)` sets
`current = desired = initial`. -/
def SmoothedValue.new (initial smoothing_factor rate : ℝ) : SmoothedValue :=
  ⟨initial, initial, smoothing_factor, rate⟩

/-- Modelled from the spec: `move_desired(delta)` is `desired += delta`, no clamp. -/
def SmoothedValue.move_desired (v : SmoothedValue) (delta : ℝ) : SmoothedValue :=
  { v with desired := v.desired + delta }

/-- Source `clamp(x, lo, hi)` with `lo ≤ hi`: the nearest point of `[lo, hi]` to `x`. -/
def clamp (x lo hi : ℝ) : ℝ := max lo (min x hi)

/-- Modelled from the spec: `move_desired_clamp(delta, min, max)` is
`desired = clamp(desired + delta, min, max)`. -/
def SmoothedValue.move_desired_clamp (v : SmoothedValue) (delta lo hi : ℝ) : SmoothedValue :=
  { v with desired := clamp (v.desired + delta) lo hi }

/-- Modelled from the spec: the `SmoothedValue::update` implementation is not
among the provided sources. Per §4.1 it advances `current` toward `desired`
by an exponential-decay interpolation parameterized by `smoothing_factor` and
`delta_time` — modelled by the rational surrogate `dt / (smoothing_factor + dt)`
of the decay fraction `1 - exp (-dt / smoothing_factor)` — floored at the
minimum rate `rate * delta_time` so convergence does not stall asymptotically,
and snapping `current = desired` once the remaining gap is within the minimum
step (the cutoff threshold). -/
def SmoothedValue.update (v : SmoothedValue) (delta_time : ℝ) : SmoothedValue :=
  let gap := v.desired - v.current
  let step := max (|gap| * (delta_time / (v.smoothing_factor + delta_time)))
      (v.rate * delta_time)
  if |gap| ≤ step then { v with current := v.desired }
  else if 0 < gap then { v with current := v.current + step }
  else { v with current := v.current - step }

/-- Modelled from the spec: `get_current` is a read-only accessor. -/
def SmoothedValue.get_current (v : SmoothedValue) : ℝ := v.current

/-- Iterated `update` over a list of time steps (left fold). -/
def SmoothedValue.update_all (v : SmoothedValue) (dts : List ℝ) : SmoothedValue :=
  dts.foldl SmoothedValue.update v

/-- Source `const ZOOM_SPEED: f32 = 2.0`. -/
def ZOOM_SPEED : ℝ := 2
/-- Source `const ROTATION_SPEED: f32 = 0.02`. -/
def ROTATION_SPEED : ℝ := 0.02
/-- Source `const MINIMUM_ZOOM: f32 = 150.0`. -/
def MINIMUM_ZOOM : ℝ := 150
/-- Source `const MAXIMUM_ZOOM: f32 = 600.0`. -/
def MAXIMUM_ZOOM : ℝ := 600
/-- Source `const DEFAULT_ZOOM: f32 = 400.0`. -/
def DEFAULT_ZOOM : ℝ := 400

/-- The `Transform` argument of `transform_matrix` (position / rotation / scale
triple; rotation components are angles in radians). -/
structure Transform where
  position : Vec3
  rotation : Vec3
  scale : Vec3

/-- The `PlayerCamera` struct of `player.rs`. -/
structure PlayerCamera where
  focus_position : Vec3
  look_up_vector : Vec3
  view_matrix : Matrix4
  projection_matrix : Matrix4
  world_to_screen_matrix : Matrix4
  screen_to_world_matrix : Matrix4
  view_angle : SmoothedValue
  zoom : SmoothedValue
  aspect_ratio : ℝ

/-- Source `PlayerCamera::new`. -/
def PlayerCamera.new : PlayerCamera where
  focus_position := ⟨0, 0, 0⟩
  look_up_vector := ⟨0, -1, 0⟩
  view_matrix := Matrix4.from_value 0
  projection_matrix := Matrix4.from_value 0
  world_to_screen_matrix := Matrix4.from_value 0
  screen_to_world_matrix := Matrix4.from_value 0
  view_angle := SmoothedValue.new (Real.pi / 2) 0.01 15
  zoom := SmoothedValue.new DEFAULT_ZOOM 0.01 5
  aspect_ratio := 0

/-- Source `PlayerCamera::set_focus_point`. -/
def PlayerCamera.set_focus_point (cam : PlayerCamera) (position : Vec3) : PlayerCamera :=
  { cam with focus_position := ⟨position.x, position.y, position.z⟩ }

/-- Source `PlayerCamera::soft_zoom`. -/
def PlayerCamera.soft_zoom (cam : PlayerCamera) (zoom_factor : ℝ) : PlayerCamera :=
  { cam with zoom := cam.zoom.move_desired_clamp (zoom_factor * ZOOM_SPEED) MINIMUM_ZOOM MAXIMUM_ZOOM }

/-- Source `PlayerCamera::soft_rotate`. -/
def PlayerCamera.soft_rotate (cam : PlayerCamera) (rotation : ℝ) : PlayerCamera :=
  { cam with view_angle := cam.view_angle.move_desired (rotation * ROTATION_SPEED) }

/-- Source `PlayerCamera::update`. -/
def PlayerCamera.update (cam : PlayerCamera) (delta_time : ℝ) : PlayerCamera :=
  { cam with
    zoom := cam.zoom.update delta_time
    view_angle := cam.view_angle.update delta_time }

/-- Source `PlayerCamera::camera_position`. -/
def PlayerCamera.camera_position (cam : PlayerCamera) : Vec3 :=
  let zoom := cam.zoom.get_current
  let view_angle := cam.view_angle.get_current
  ⟨cam.focus_position.x + zoom * Real.cos view_angle,
   cam.focus_position.y + zoom,
   cam.focus_position.z + -zoom * Real.sin view_angle⟩

/-- Source `PlayerCamera::clip_to_screen_space`. -/
def PlayerCamera.clip_to_screen_space (_cam : PlayerCamera) (clip_space_position : Vec4) : Vec2 :=
  ⟨clip_space_position.x / clip_space_position.w + 1,
   clip_space_position.y / clip_space_position.w + 1⟩

/-- Source `Camera::generate_view_projection` for `PlayerCamera`. `window_size` is the
`Vector2<usize>` argument. The source unwraps `invert()`, aborting the process
when the combined matrix has no inverse; the abort is modelled as `none`, and
a completed call as `some` of the updated camera. -/
def PlayerCamera.generate_view_projection (cam : PlayerCamera) (window_size : ℕ × ℕ) :
    Option PlayerCamera :=
  let aspect : ℝ := (window_size.1 : ℝ) / (window_size.2 : ℝ)
  let proj := perspective 0.2617 aspect 1 2000
  let view := look_at_rh cam.camera_position cam.focus_position cam.look_up_vector
  let wts := proj * view
  if wts.det = 0 then none
  else some { cam with
    aspect_ratio := aspect
    projection_matrix := proj
    view_matrix := view
    world_to_screen_matrix := wts
    screen_to_world_matrix := wts⁻¹ }

/-- Source `Camera::transform_matrix` for `PlayerCamera`. -/
def PlayerCamera.transform_matrix (_cam : PlayerCamera) (transform : Transform) : Matrix4 :=
  let translation_matrix := from_translation transform.position
  let rotation_matrix := from_angle_x transform.rotation.x * from_angle_y transform.rotation.y *
      from_angle_z transform.rotation.z
  let scale_matrix := from_nonuniform_scale transform.scale.x transform.scale.y transform.scale.z
  translation_matrix * rotation_matrix * scale_matrix

/-- Source `Camera::screen_position_size` for `PlayerCamera`. -/
def PlayerCamera.screen_position_size (cam : PlayerCamera)
    (top_left_position bottom_right_position : Vec4) : Vec2 × Vec2 :=
  let tl := cam.clip_to_screen_space top_left_position
  let br := cam.clip_to_screen_space bottom_right_position
  (tl, br.sub tl)

/-- Source `Camera::distance_to` for `PlayerCamera`. -/
def PlayerCamera.distance_to (cam : PlayerCamera) (position : Vec3) : ℝ :=
  cam.camera_position.distance position

/-- Source `const SCROLL_SPEED: f32 = 0.8` from `scroll.rs`. -/
def SCROLL_SPEED : ℝ := 0.8

/-- The interface change event returned by `ScrollView::scroll`; only the
variant used in `scroll.rs` is modelled. -/
inductive ChangeEvent where
  | RerenderWindow

/-- The `ScrollView` struct of `scroll.rs`, restricted to its `scroll` offset
field; the contained element tree and size constraint do not participate in
the scrolling arithmetic. -/
structure ScrollView where
  scroll : ℝ

/-- Source `ScrollView::new`: `let scroll = 0.0`. -/
def ScrollView.new : ScrollView := ⟨0⟩

/-- Source `Element::scroll` for `ScrollView` (named `scroll_event` here because the
field of the same name occupies `ScrollView.scroll`). -/
def ScrollView.scroll_event (s : ScrollView) (delta : ℝ) : ScrollView × Option ChangeEvent :=
  let scroll := s.scroll - delta * SCROLL_SPEED
  (⟨max scroll 0⟩, some ChangeEvent.RerenderWindow)

/-- A concrete smoothed value used to exercise the update theorem: current 0,
desired 10, smoothing factor 1, minimum rate 2. -/
def wv : SmoothedValue := ⟨0, 10, 1, 2⟩

/-- A camera whose smoothed zoom has settled at the default 400 and whose
smoothed view angle has settled at 0, with the focus at the origin. -/
def exampleCamera : PlayerCamera :=
  { PlayerCamera.new with view_angle := SmoothedValue.new 0 0.01 15 }

/-- The camera state produced by `generate_view_projection` on a fresh
`PlayerCamera` with an 800×600 window (the fresh camera sits at world position
`(0, 400, -400)` because its angle is `π/2` and its zoom is `400`). -/
def camAfter : PlayerCamera :=
  { PlayerCamera.new with
    aspect_ratio := 800 / 600
    projection_matrix := perspective 0.2617 (800 / 600) 1 2000
    view_matrix := look_at_rh ⟨0, 400, -400⟩ ⟨0, 0, 0⟩ ⟨0, -1, 0⟩
    world_to_screen_matrix :=
      perspective 0.2617 (800 / 600) 1 2000 * look_at_rh ⟨0, 400, -400⟩ ⟨0, 0, 0⟩ ⟨0, -1, 0⟩
    screen_to_world_matrix :=
      (perspective 0.2617 (800 / 600) 1 2000 * look_at_rh ⟨0, 400, -400⟩ ⟨0, 0, 0⟩ ⟨0, -1, 0⟩)⁻¹ }

end

/-- C9: `set_focus_point`, `soft_zoom`, `soft_rotate` and `update` leave the
view, projection, world-to-screen and screen-to-world matrices, the aspect
ratio and the look-up vector unchanged; only `generate_view_projection`
touches them. -/
theorem producers_preserve_matrices (cam : PlayerCamera) (p : Vec3) (f r dt : ℝ) :
    ((cam.set_focus_point p).view_matrix = cam.view_matrix ∧
     (cam.set_focus_point p).projection_matrix = cam.projection_matrix ∧
     (cam.set_focus_point p).world_to_screen_matrix = cam.world_to_screen_matrix ∧
     (cam.set_focus_point p).screen_to_world_matrix = cam.screen_to_world_matrix ∧
     (cam.set_focus_point p).aspect_ratio = cam.aspect_ratio ∧
     (cam.set_focus_point p).look_up_vector = cam.look_up_vector) ∧
    ((cam.soft_zoom f).view_matrix = cam.view_matrix ∧
     (cam.soft_zoom f).projection_matrix = cam.projection_matrix ∧
     (cam.soft_zoom f).world_to_screen_matrix = cam.world_to_screen_matrix ∧
     (cam.soft_zoom f).screen_to_world_matrix = cam.screen_to_world_matrix ∧
     (cam.soft_zoom f).aspect_ratio = cam.aspect_ratio ∧
     (cam.soft_zoom f).look_up_vector = cam.look_up_vector) ∧
    ((cam.soft_rotate r).view_matrix = cam.view_matrix ∧
     (cam.soft_rotate r).projection_matrix = cam.projection_matrix ∧
     (cam.soft_rotate r).world_to_screen_matrix = cam.world_to_screen_matrix ∧
     (cam.soft_rotate r).screen_to_world_matrix = cam.screen_to_world_matrix ∧
     (cam.soft_rotate r).aspect_ratio = cam.aspect_ratio ∧
     (cam.soft_rotate r).look_up_vector = cam.look_up_vector) ∧
    ((cam.update dt).view_matrix = cam.view_matrix ∧
     (cam.update dt).projection_matrix = cam.projection_matrix ∧
     (cam.update dt).world_to_screen_matrix = cam.world_to_screen_matrix ∧
     (cam.update dt).screen_to_world_matrix = cam.screen_to_world_matrix ∧
     (cam.update dt).aspect_ratio = cam.aspect_ratio ∧
     (cam.update dt).look_up_vector = cam.look_up_vector) :=
  ⟨⟨rfl, rfl, rfl, rfl, rfl, rfl⟩, ⟨rfl, rfl, rfl, rfl, rfl, rfl⟩,
   ⟨rfl, rfl, rfl, rfl, rfl, rfl⟩, ⟨rfl, rfl, rfl, rfl, rfl, rfl⟩⟩

/-- C10: the scroll offset is 0 after construction, and every `scroll(delta)`
call leaves it equal to `max (previous - delta * 0.8) 0`, which is never
negative. -/
theorem scroll_offset_nonneg :
    ScrollView.new.scroll = 0 ∧
    ∀ (s : ScrollView) (delta : ℝ),
      (s.scroll_event delta).1.scroll = max (s.scroll - delta * 0.8) 0 ∧
      0 ≤ (s.scroll_event delta).1.scroll :=
  ⟨rfl, fun _ _ => ⟨rfl, le_max_right _ _⟩⟩

/-- C8: `transform_matrix` equals translation × (rotateX × rotateY × rotateZ) ×
non-uniform scale, and is a pure function of the transform, independent of the
camera state. -/
theorem transform_matrix_pure (cam₁ cam₂ : PlayerCamera) (t : Transform) :
    cam₁.transform_matrix t = cam₂.transform_matrix t ∧
    cam₁.transform_matrix t =
      from_translation t.position *
        (from_angle_x t.rotation.x * from_angle_y t.rotation.y * from_angle_z t.rotation.z) *
        from_nonuniform_scale t.scale.x t.scale.y t.scale.z :=
  ⟨rfl, by
    show _ = from_translation t.position *
        (from_angle_x t.rotation.x * from_angle_y t.rotation.y * from_angle_z t.rotation.z) *
        from_nonuniform_scale t.scale.x t.scale.y t.scale.z
    rw [PlayerCamera.transform_matrix]⟩

/-- C7: with nonzero `w` components, `screen_position_size` perspective-divides
each corner as `(x / w + 1, y / w + 1)` and returns the divided top-left corner
as position with (divided bottom-right minus divided top-left) as size. -/
theorem screen_position_size_spec (cam : PlayerCamera) (tl br : Vec4)
    (htl : tl.w ≠ 0) (hbr : br.w ≠ 0) :
    cam.screen_position_size tl br =
      (⟨tl.x / tl.w + 1, tl.y / tl.w + 1⟩,
       ⟨(br.x / br.w + 1) - (tl.x / tl.w + 1), (br.y / br.w + 1) - (tl.y / tl.w + 1)⟩) :=
  rfl

/-- Witness for C7 at concrete corners with `w = 1` and `w = 2`. -/
theorem screen_position_size_spec_witness :
    ((⟨3, 4, 0, 1⟩ : Vec4).w ≠ 0) ∧ ((⟨5, 6, 0, 2⟩ : Vec4).w ≠ 0) ∧
    PlayerCamera.new.screen_position_size ⟨3, 4, 0, 1⟩ ⟨5, 6, 0, 2⟩ =
      (⟨3 / 1 + 1, 4 / 1 + 1⟩,
       ⟨(5 / 2 + 1) - (3 / 1 + 1), (6 / 2 + 1) - (4 / 1 + 1)⟩) :=
  ⟨by norm_num, by norm_num,
   screen_position_size_spec PlayerCamera.new ⟨3, 4, 0, 1⟩ ⟨5, 6, 0, 2⟩
     (by norm_num) (by norm_num)⟩

lemma soft_zoom_desired_mem (cam : PlayerCamera) (f : ℝ) :
    150 ≤ (cam.soft_zoom f).zoom.desired ∧ (cam.soft_zoom f).zoom.desired ≤ 600 := by
  constructor
  · exact le_max_left _ _
  · exact max_le (by norm_num [MINIMUM_ZOOM]) (min_le_right _ _)

lemma soft_zoom_m1000_settles (cam : PlayerCamera)
    (h : cam.zoom.desired ≤ 600) :
    (cam.soft_zoom (-1000)).zoom.desired = 150 := by
  show clamp (cam.zoom.desired + -1000 * ZOOM_SPEED) MINIMUM_ZOOM MAXIMUM_ZOOM = 150
  rw [clamp, ZOOM_SPEED, MINIMUM_ZOOM, MAXIMUM_ZOOM]
  rw [min_eq_left (by linarith), max_eq_left (by linarith)]

/-- C2: after every `soft_zoom` call the target zoom lies within `[150, 600]`,
and repeating `soft_zoom (-1000)` (two calls or more, from any state) drives
the target to exactly 150. -/
theorem soft_zoom_target_clamped :
    (∀ (cam : PlayerCamera) (factor : ℝ),
       150 ≤ (cam.soft_zoom factor).zoom.desired ∧ (cam.soft_zoom factor).zoom.desired ≤ 600) ∧
    (∀ (cam : PlayerCamera) (n : ℕ),
       ((fun c => PlayerCamera.soft_zoom c (-1000))^[n + 2] cam).zoom.desired = 150) := by
  refine ⟨soft_zoom_desired_mem, fun cam n => ?_⟩
  induction n with
  | zero =>
    exact soft_zoom_m1000_settles _ (soft_zoom_desired_mem cam (-1000)).2
  | succ k ih =>
    rw [show k + 1 + 2 = k + 2 + 1 from rfl, Function.iterate_succ_apply']
    exact soft_zoom_m1000_settles _ (by rw [ih]; norm_num)

/-- C3: the camera position adds `(zoom · cos angle, zoom, -zoom · sin angle)`
to the focus point; with focus at the origin, current zoom 400 and current
angle 0 it is `(400, 400, 0)` and the distance to the origin is
`√(400² + 400²)`. -/
theorem camera_position_orbit :
    (∀ cam : PlayerCamera,
       cam.camera_position =
         ⟨cam.focus_position.x + cam.zoom.get_current * Real.cos cam.view_angle.get_current,
          cam.focus_position.y + cam.zoom.get_current,
          cam.focus_position.z + -cam.zoom.get_current * Real.sin cam.view_angle.get_current⟩) ∧
    exampleCamera.camera_position = ⟨400, 400, 0⟩ ∧
    exampleCamera.distance_to ⟨0, 0, 0⟩ = Real.sqrt (400 ^ 2 + 400 ^ 2) := by
  have hpos : exampleCamera.camera_position = ⟨400, 400, 0⟩ := by
    simp [exampleCamera, PlayerCamera.camera_position, PlayerCamera.new, SmoothedValue.new,
      SmoothedValue.get_current, DEFAULT_ZOOM]
  refine ⟨fun _ => rfl, hpos, ?_⟩
  rw [PlayerCamera.distance_to, hpos]
  show Real.sqrt _ = _
  rw [Vec3.sub]
  simp [Vec3.dot]
  norm_num

lemma update_desired_eq (v : SmoothedValue) (dt : ℝ) : (v.update dt).desired = v.desired := by
  simp only [SmoothedValue.update]
  split_ifs <;> rfl

lemma update_params_eq (v : SmoothedValue) (dt : ℝ) :
    (v.update dt).rate = v.rate ∧ (v.update dt).smoothing_factor = v.smoothing_factor := by
  simp only [SmoothedValue.update]
  split_ifs <;> exact ⟨rfl, rfl⟩

lemma update_current_step (v : SmoothedValue) (dt : ℝ)
    (hdt : 0 < dt) (hrate : 0 < v.rate) :
    (v.update dt).current = v.desired ∨
      (v.current < (v.update dt).current ∧ (v.update dt).current < v.desired) ∨
      (v.desired < (v.update dt).current ∧ (v.update dt).current < v.current) := by
  have hstep : 0 < max (|v.desired - v.current| * (dt / (v.smoothing_factor + dt)))
      (v.rate * dt) := lt_of_lt_of_le (mul_pos hrate hdt) (le_max_right _ _)
  simp only [SmoothedValue.update]
  split_ifs with h1 h2
  · exact Or.inl rfl
  · refine Or.inr (Or.inl ⟨lt_add_of_pos_right _ hstep, ?_⟩)
    have h1' := not_le.mp h1
    have habs := abs_of_pos h2
    show v.current + _ < v.desired
    linarith
  · have h1' := not_le.mp h1
    have hg : v.desired - v.current < 0 := by
      rcases lt_trichotomy (v.desired - v.current) 0 with h | h | h
      · exact h
      · exfalso
        rw [h, abs_zero] at h1'
        have hle := le_max_right ((0 : ℝ) * (dt / (v.smoothing_factor + dt))) (v.rate * dt)
        have hrd := mul_pos hrate hdt
        linarith
      · exact absurd h h2
    have habs := abs_of_neg hg
    refine Or.inr (Or.inr ⟨?_, sub_lt_self _ hstep⟩)
    show v.desired < v.current - _
    linarith

lemma update_dist_le (v : SmoothedValue) (dt : ℝ)
    (hdt : 0 < dt) (hrate : 0 < v.rate) :
    |v.desired - (v.update dt).current| ≤ |v.desired - v.current| := by
  rcases update_current_step v dt hdt hrate with h | ⟨h1, h2⟩ | ⟨h1, h2⟩
  · rw [h]; simp
  · rw [abs_of_pos (by linarith), abs_of_pos (by linarith)]
    linarith
  · rw [abs_of_neg (by linarith), abs_of_neg (by linarith)]
    linarith

lemma update_mem_interval (v : SmoothedValue) (dt : ℝ)
    (hdt : 0 < dt) (hrate : 0 < v.rate) :
    min v.current v.desired ≤ (v.update dt).current ∧
      (v.update dt).current ≤ max v.current v.desired := by
  rcases update_current_step v dt hdt hrate with h | ⟨h1, h2⟩ | ⟨h1, h2⟩
  · rw [h]; exact ⟨min_le_right _ _, le_max_right _ _⟩
  · exact ⟨le_trans (min_le_left _ _) h1.le, le_trans h2.le (le_max_right _ _)⟩
  · exact ⟨le_trans (min_le_right _ _) h1.le, le_trans h2.le (le_max_left _ _)⟩

lemma update_all_invariant (dts : List ℝ) :
    ∀ v : SmoothedValue, 0 < v.rate → (∀ t ∈ dts, 0 < t) →
      (v.update_all dts).desired = v.desired ∧
      min v.current v.desired ≤ (v.update_all dts).current ∧
      (v.update_all dts).current ≤ max v.current v.desired ∧
      |v.desired - (v.update_all dts).current| ≤ |v.desired - v.current| := by
  induction dts with
  | nil => exact fun v _ _ => ⟨rfl, min_le_left _ _, le_max_left _ _, le_refl _⟩
  | cons dt rest ih =>
    intro v hrate hpos
    have hdt : 0 < dt := hpos dt (List.mem_cons_self _ _)
    have hrest : ∀ t ∈ rest, 0 < t := fun t ht => hpos t (List.mem_cons_of_mem _ ht)
    have hall : v.update_all (dt :: rest) = (v.update dt).update_all rest := rfl
    have hw := ih (v.update dt) (by rw [(update_params_eq v dt).1]; exact hrate) hrest
    have hdes := update_desired_eq v dt
    have hint := update_mem_interval v dt hdt hrate
    have hdist := update_dist_le v dt hdt hrate
    rw [hdes] at hw
    refine ⟨by rw [hall, hw.1], ?_, ?_, ?_⟩
    · rw [hall]
      exact le_trans (le_min hint.1 (min_le_right _ _)) hw.2.1
    · rw [hall]
      exact le_trans hw.2.2.1 (max_le hint.2 (le_max_right _ _))
    · rw [hall]
      exact le_trans hw.2.2.2 hdist

/-- C4: after each `update` with positive `delta_time` the desired value is
unchanged and the current value is strictly between its previous value and
the desired value or snaps exactly to it; across any sequence of positive-time
updates the current value stays within the interval spanned by its start value
and the desired value (no overshoot) and its distance to the desired value
never increases. -/
theorem smoothed_value_no_overshoot (v : SmoothedValue) (dt : ℝ) (dts : List ℝ)
    (hdt : 0 < dt) (hrate : 0 < v.rate) (hdts : ∀ t ∈ dts, 0 < t) :
    (v.update dt).desired = v.desired ∧
    ((v.update dt).current = v.desired ∨
      (v.current < (v.update dt).current ∧ (v.update dt).current < v.desired) ∨
      (v.desired < (v.update dt).current ∧ (v.update dt).current < v.current)) ∧
    |v.desired - (v.update dt).current| ≤ |v.desired - v.current| ∧
    min v.current v.desired ≤ (v.update_all dts).current ∧
    (v.update_all dts).current ≤ max v.current v.desired ∧
    |v.desired - (v.update_all dts).current| ≤ |v.desired - v.current| :=
  ⟨update_desired_eq v dt, update_current_step v dt hdt hrate,
   update_dist_le v dt hdt hrate,
   (update_all_invariant dts v hrate hdts).2.1,
   (update_all_invariant dts v hrate hdts).2.2.1,
   (update_all_invariant dts v hrate hdts).2.2.2⟩

/-- Witness for C4 at `current = 0`, `desired = 10`, `smoothing_factor = 1`,
`rate = 2`, a single step of `delta_time = 1`. -/
theorem smoothed_value_no_overshoot_witness :
    (0 : ℝ) < 1 ∧ (0 : ℝ) < wv.rate ∧
    ((wv.update 1).desired = wv.desired ∧
     ((wv.update 1).current = wv.desired ∨
       (wv.current < (wv.update 1).current ∧ (wv.update 1).current < wv.desired) ∨
       (wv.desired < (wv.update 1).current ∧ (wv.update 1).current < wv.current)) ∧
     |wv.desired - (wv.update 1).current| ≤ |wv.desired - wv.current| ∧
     min wv.current wv.desired ≤ (wv.update_all [1]).current ∧
     (wv.update_all [1]).current ≤ max wv.current wv.desired ∧
     |wv.desired - (wv.update_all [1]).current| ≤ |wv.desired - wv.current|) :=
  ⟨by norm_num, by norm_num [wv],
   smoothed_value_no_overshoot wv 1 [1] (by norm_num) (by norm_num [wv])
     (by intro t ht; rw [List.mem_singleton] at ht; rw [ht]; norm_num)⟩

lemma det4 (M : Matrix (Fin 4) (Fin 4) ℝ) :
    M.det =
      M 0 0 * (M 1 1 * (M 2 2 * M 3 3 - M 2 3 * M 3 2) -
               M 1 2 * (M 2 1 * M 3 3 - M 2 3 * M 3 1) +
               M 1 3 * (M 2 1 * M 3 2 - M 2 2 * M 3 1)) -
      M 0 1 * (M 1 0 * (M 2 2 * M 3 3 - M 2 3 * M 3 2) -
               M 1 2 * (M 2 0 * M 3 3 - M 2 3 * M 3 0) +
               M 1 3 * (M 2 0 * M 3 2 - M 2 2 * M 3 0)) +
      M 0 2 * (M 1 0 * (M 2 1 * M 3 3 - M 2 3 * M 3 1) -
               M 1 1 * (M 2 0 * M 3 3 - M 2 3 * M 3 0) +
               M 1 3 * (M 2 0 * M 3 1 - M 2 1 * M 3 0)) -
      M 0 3 * (M 1 0 * (M 2 1 * M 3 2 - M 2 2 * M 3 1) -
               M 1 1 * (M 2 0 * M 3 2 - M 2 2 * M 3 0) +
               M 1 2 * (M 2 0 * M 3 1 - M 2 1 * M 3 0)) := by
  have e00 : (0 : Fin 4).succAbove 0 = 1 := by decide
  have e01 : (0 : Fin 4).succAbove 1 = 2 := by decide
  have e02 : (0 : Fin 4).succAbove 2 = 3 := by decide
  have e10 : (1 : Fin 4).succAbove 0 = 0 := by decide
  have e11 : (1 : Fin 4).succAbove 1 = 2 := by decide
  have e12 : (1 : Fin 4).succAbove 2 = 3 := by decide
  have e20 : (2 : Fin 4).succAbove 0 = 0 := by decide
  have e21 : (2 : Fin 4).succAbove 1 = 1 := by decide
  have e22 : (2 : Fin 4).succAbove 2 = 3 := by decide
  have e30 : (3 : Fin 4).succAbove 0 = 0 := by decide
  have e31 : (3 : Fin 4).succAbove 1 = 1 := by decide
  have e32 : (3 : Fin 4).succAbove 2 = 2 := by decide
  have f0 : (Fin.succ 0 : Fin 4) = 1 := by decide
  have f1 : (Fin.succ 1 : Fin 4) = 2 := by decide
  have f2 : (Fin.succ 2 : Fin 4) = 3 := by decide
  have v0 : ((0 : Fin 4) : ℕ) = 0 := rfl
  have v1 : ((1 : Fin 4) : ℕ) = 1 := rfl
  have v2 : ((2 : Fin 4) : ℕ) = 2 := rfl
  have v3 : ((3 : Fin 4) : ℕ) = 3 := rfl
  rw [Matrix.det_succ_row_zero, Fin.sum_univ_four]
  simp only [Matrix.det_fin_three, Matrix.submatrix_apply, e00, e01, e02, e10, e11, e12,
    e20, e21, e22, e30, e31, e32, f0, f1, f2, v0, v1, v2, v3]
  norm_num
  ring

lemma view_new_entries :
    look_at_rh ⟨0, 400, -400⟩ ⟨0, 0, 0⟩ ⟨0, -1, 0⟩ =
      !![1, 0, 0, 0;
         0, -(400 / Real.sqrt 320000), -(400 / Real.sqrt 320000), 0;
         0, 400 / Real.sqrt 320000, -(400 / Real.sqrt 320000), -(320000 / Real.sqrt 320000);
         0, 0, 0, 1] := by
  have hRpos : 0 < Real.sqrt 320000 := Real.sqrt_pos.mpr (by norm_num)
  have hRne : Real.sqrt 320000 ≠ 0 := ne_of_gt hRpos
  have h1 : Vec3.sub ⟨0, 0, 0⟩ ⟨0, 400, -400⟩ = ⟨0, -400, 400⟩ := by
    rw [Vec3.sub]; norm_num
  have h2 : (⟨0, -400, 400⟩ : Vec3).magnitude = Real.sqrt 320000 := by
    rw [Vec3.magnitude, Vec3.dot]; norm_num
  have h3 : (⟨0, -400, 400⟩ : Vec3).normalize =
      ⟨0, -(400 / Real.sqrt 320000), 400 / Real.sqrt 320000⟩ := by
    rw [Vec3.normalize, h2, Vec3.mk.injEq]
    refine ⟨by ring, by ring, by ring⟩
  have h4 : Vec3.cross ⟨0, -(400 / Real.sqrt 320000), 400 / Real.sqrt 320000⟩ ⟨0, -1, 0⟩ =
      ⟨400 / Real.sqrt 320000, 0, 0⟩ := by
    rw [Vec3.cross, Vec3.mk.injEq]
    refine ⟨by ring, by ring, by ring⟩
  have hrpos : (0 : ℝ) < 400 / Real.sqrt 320000 := by positivity
  have h5 : (⟨400 / Real.sqrt 320000, 0, 0⟩ : Vec3).magnitude = 400 / Real.sqrt 320000 := by
    rw [Vec3.magnitude, Vec3.dot]
    rw [show 400 / Real.sqrt 320000 * (400 / Real.sqrt 320000) + 0 * 0 + 0 * 0 =
        (400 / Real.sqrt 320000) ^ 2 by ring]
    exact Real.sqrt_sq hrpos.le
  have h6 : (⟨400 / Real.sqrt 320000, 0, 0⟩ : Vec3).normalize = ⟨1, 0, 0⟩ := by
    rw [Vec3.normalize, h5, Vec3.mk.injEq]
    refine ⟨?_, by ring, by ring⟩
    rw [mul_one_div, div_self (ne_of_gt hrpos)]
  have h7 : Vec3.cross ⟨1, 0, 0⟩ ⟨0, -(400 / Real.sqrt 320000), 400 / Real.sqrt 320000⟩ =
      ⟨0, -(400 / Real.sqrt 320000), -(400 / Real.sqrt 320000)⟩ := by
    rw [Vec3.cross, Vec3.mk.injEq]
    refine ⟨by ring, by ring, by ring⟩
  simp only [look_at_rh, h1, h3, h4, h6, h7, Vec3.dot]
  ext i j
  fin_cases i <;> fin_cases j <;> simp <;> ring_nf
  · field_simp

lemma tan_fov_half_pos : 0 < Real.tan (2617 / 20000 : ℝ) := by
  apply Real.tan_pos_of_pos_of_lt_pi_div_two
  · norm_num
  · have := Real.pi_gt_three
    linarith

lemma det_perspective_ne (aspect : ℝ) (ha : aspect ≠ 0) :
    (perspective 0.2617 aspect 1 2000).det ≠ 0 := by
  rw [det4]
  norm_num [perspective]
  exact ⟨⟨ne_of_gt tan_fov_half_pos, ha⟩, ne_of_gt tan_fov_half_pos⟩

lemma det_view_new : (look_at_rh ⟨0, 400, -400⟩ ⟨0, 0, 0⟩ ⟨0, -1, 0⟩).det = 1 := by
  have hR : Real.sqrt 320000 ^ 2 = 320000 := Real.sq_sqrt (by norm_num)
  have hRne : Real.sqrt 320000 ≠ 0 := ne_of_gt (Real.sqrt_pos.mpr (by norm_num))
  rw [view_new_entries, det4]
  norm_num
  field_simp
  nlinarith [hR]

lemma camera_position_new : PlayerCamera.new.camera_position = ⟨0, 400, -400⟩ := by
  rw [PlayerCamera.camera_position]
  simp [PlayerCamera.new, SmoothedValue.new, SmoothedValue.get_current, DEFAULT_ZOOM,
    Real.cos_pi_div_two, Real.sin_pi_div_two]

lemma gvp_new_eq : PlayerCamera.new.generate_view_projection (800, 600) = some camAfter := by
  have hfocus : PlayerCamera.new.focus_position = ⟨0, 0, 0⟩ := rfl
  have hup : PlayerCamera.new.look_up_vector = ⟨0, -1, 0⟩ := rfl
  simp only [PlayerCamera.generate_view_projection, camera_position_new, hfocus, hup]
  norm_num
  refine ⟨⟨?_, ?_⟩, ?_⟩
  · have h := det_perspective_ne ((800 : ℝ) / 600) (by norm_num)
    norm_num at h ⊢
    exact h
  · rw [det_view_new]; norm_num
  · norm_num [camAfter]
    exact ⟨hfocus.symm, hup.symm⟩

lemma det_perspective_zero_aspect : (perspective (2617 / 10000 : ℝ) 0 1 2000).det = 0 := by
  rw [det4]
  norm_num [perspective]

lemma gvp_zero_width : PlayerCamera.new.generate_view_projection (0, 600) = none := by
  have hfocus : PlayerCamera.new.focus_position = ⟨0, 0, 0⟩ := rfl
  have hup : PlayerCamera.new.look_up_vector = ⟨0, -1, 0⟩ := rfl
  simp only [PlayerCamera.generate_view_projection, camera_position_new, hfocus, hup]
  norm_num
  intro hP _hV
  exact absurd det_perspective_zero_aspect hP

lemma gvp_if_form (cam : PlayerCamera) (ws : ℕ × ℕ) :
    cam.generate_view_projection ws =
      if (perspective 0.2617 ((ws.1 : ℝ) / (ws.2 : ℝ)) 1 2000 *
          look_at_rh cam.camera_position cam.focus_position cam.look_up_vector).det = 0
      then none
      else some { cam with
        aspect_ratio := (ws.1 : ℝ) / (ws.2 : ℝ)
        projection_matrix := perspective 0.2617 ((ws.1 : ℝ) / (ws.2 : ℝ)) 1 2000
        view_matrix := look_at_rh cam.camera_position cam.focus_position cam.look_up_vector
        world_to_screen_matrix := perspective 0.2617 ((ws.1 : ℝ) / (ws.2 : ℝ)) 1 2000 *
          look_at_rh cam.camera_position cam.focus_position cam.look_up_vector
        screen_to_world_matrix := (perspective 0.2617 ((ws.1 : ℝ) / (ws.2 : ℝ)) 1 2000 *
          look_at_rh cam.camera_position cam.focus_position cam.look_up_vector)⁻¹ } :=
  rfl

/-- C1: `generate_view_projection` aborts (modelled as `none`) exactly when the
combined matrix `projection * view` is singular; on every non-degenerate
configuration it completes and stores `screen_to_world` as the inverse of
`world_to_screen`, with both products equal to the identity. -/
theorem generate_view_projection_fatal_iff (cam : PlayerCamera) (ws : ℕ × ℕ) :
    (cam.generate_view_projection ws = none ↔
      (perspective 0.2617 ((ws.1 : ℝ) / (ws.2 : ℝ)) 1 2000 *
        look_at_rh cam.camera_position cam.focus_position cam.look_up_vector).det = 0) ∧
    (∀ cam', cam.generate_view_projection ws = some cam' →
      cam'.world_to_screen_matrix =
        perspective 0.2617 ((ws.1 : ℝ) / (ws.2 : ℝ)) 1 2000 *
          look_at_rh cam.camera_position cam.focus_position cam.look_up_vector ∧
      cam'.screen_to_world_matrix = cam'.world_to_screen_matrix⁻¹ ∧
      cam'.world_to_screen_matrix * cam'.screen_to_world_matrix = 1 ∧
      cam'.screen_to_world_matrix * cam'.world_to_screen_matrix = 1) := by
  rw [gvp_if_form]
  by_cases h : (perspective 0.2617 ((ws.1 : ℝ) / (ws.2 : ℝ)) 1 2000 *
      look_at_rh cam.camera_position cam.focus_position cam.look_up_vector).det = 0
  · rw [if_pos h]
    exact ⟨iff_of_true rfl h, fun cam' hc => Option.noConfusion hc⟩
  · rw [if_neg h]
    refine ⟨iff_of_false (Option.some_ne_none _) h, fun cam' hc => ?_⟩
    have hc' := Option.some.inj hc
    subst hc'
    exact ⟨rfl, rfl, Matrix.mul_nonsing_inv _ (isUnit_iff_ne_zero.mpr h),
      Matrix.nonsing_inv_mul _ (isUnit_iff_ne_zero.mpr h)⟩

/-- Witness for C1: a fresh camera with an 800×600 window is non-degenerate,
the call completes with `camAfter`, and the stored matrices are mutually
inverse. -/
theorem generate_view_projection_fatal_iff_witness :
    (PlayerCamera.new.generate_view_projection (800, 600) = none ↔
      (perspective 0.2617 (((800 : ℕ) : ℝ) / ((600 : ℕ) : ℝ)) 1 2000 *
        look_at_rh PlayerCamera.new.camera_position PlayerCamera.new.focus_position
          PlayerCamera.new.look_up_vector).det = 0) ∧
    (camAfter.world_to_screen_matrix =
        perspective 0.2617 (((800 : ℕ) : ℝ) / ((600 : ℕ) : ℝ)) 1 2000 *
          look_at_rh PlayerCamera.new.camera_position PlayerCamera.new.focus_position
            PlayerCamera.new.look_up_vector ∧
      camAfter.screen_to_world_matrix = camAfter.world_to_screen_matrix⁻¹ ∧
      camAfter.world_to_screen_matrix * camAfter.screen_to_world_matrix = 1 ∧
      camAfter.screen_to_world_matrix * camAfter.world_to_screen_matrix = 1) :=
  ⟨(generate_view_projection_fatal_iff PlayerCamera.new (800, 600)).1,
   (generate_view_projection_fatal_iff PlayerCamera.new (800, 600)).2 camAfter gvp_new_eq⟩

/-- C6: for a window with positive height, a completed
`generate_view_projection` stores `aspect_ratio = width / height`, the
perspective projection with fixed vertical field of view `0.2617` radians
(within `0.0001` of 15 degrees, i.e. `π / 12`) and near/far planes `1` and
`2000`, and `world_to_screen = projection * view`. -/
theorem generate_view_projection_sets_projection (cam : PlayerCamera) (ws : ℕ × ℕ)
    (hh : 0 < ws.2) :
    |(0.2617 : ℝ) - Real.pi / 12| < 0.0001 ∧
    (∀ cam', cam.generate_view_projection ws = some cam' →
      cam'.aspect_ratio = (ws.1 : ℝ) / (ws.2 : ℝ) ∧
      cam'.projection_matrix = perspective 0.2617 ((ws.1 : ℝ) / (ws.2 : ℝ)) 1 2000 ∧
      cam'.view_matrix = look_at_rh cam.camera_position cam.focus_position cam.look_up_vector ∧
      cam'.world_to_screen_matrix = cam'.projection_matrix * cam'.view_matrix) := by
  have hfov : |(0.2617 : ℝ) - Real.pi / 12| < 0.0001 := by
    have h1 := Real.pi_gt_d6
    have h2 := Real.pi_lt_d6
    rw [abs_lt]
    constructor <;> linarith
  refine ⟨hfov, ?_⟩
  rw [gvp_if_form cam ws]
  by_cases h : (perspective 0.2617 ((ws.1 : ℝ) / (ws.2 : ℝ)) 1 2000 *
      look_at_rh cam.camera_position cam.focus_position cam.look_up_vector).det = 0
  · rw [if_pos h]
    exact fun cam' hc => Option.noConfusion hc
  · rw [if_neg h]
    intro cam' hc
    have hc' := Option.some.inj hc
    subst hc'
    exact ⟨rfl, rfl, rfl, rfl⟩

/-- Witness for C6 at a fresh camera with an 800×600 window. -/
theorem generate_view_projection_sets_projection_witness :
    0 < ((800, 600) : ℕ × ℕ).2 ∧
    (|(0.2617 : ℝ) - Real.pi / 12| < 0.0001 ∧
     (camAfter.aspect_ratio = ((800 : ℕ) : ℝ) / ((600 : ℕ) : ℝ) ∧
      camAfter.projection_matrix =
        perspective 0.2617 (((800 : ℕ) : ℝ) / ((600 : ℕ) : ℝ)) 1 2000 ∧
      camAfter.view_matrix = look_at_rh PlayerCamera.new.camera_position
        PlayerCamera.new.focus_position PlayerCamera.new.look_up_vector ∧
      camAfter.world_to_screen_matrix = camAfter.projection_matrix * camAfter.view_matrix)) :=
  ⟨by norm_num,
   (generate_view_projection_sets_projection PlayerCamera.new (800, 600) (by norm_num)).1,
   (generate_view_projection_sets_projection PlayerCamera.new (800, 600) (by norm_num)).2
     camAfter gvp_new_eq⟩

/-- C5 counterexample: with window size `(0, 600)` the call does not produce a
recoverable error value — the embedding returns `none`, which models the
`unwrap` abort of the source, so no "degenerate configuration" error is raised. -/
theorem gvp_zero_width_counterexample :
    PlayerCamera.new.generate_view_projection (0, 600) = none :=
  gvp_zero_width

/-- C5 amended: with window size `(0, 600)` the aspect ratio is `0`, the
combined world-to-screen matrix is singular, and `generate_view_projection`
fails fatally (unwrap on a failed inversion, modelled as `none`); no
recoverable error is raised in the current design. -/
theorem gvp_zero_width_fatal :
    (perspective 0.2617 (((0 : ℕ) : ℝ) / ((600 : ℕ) : ℝ)) 1 2000 *
      look_at_rh PlayerCamera.new.camera_position PlayerCamera.new.focus_position
        PlayerCamera.new.look_up_vector).det = 0 ∧
    PlayerCamera.new.generate_view_projection (0, 600) = none := by
  constructor
  · rw [Matrix.det_mul, show (((0 : ℕ) : ℝ) / ((600 : ℕ) : ℝ)) = 0 by norm_num,
      show (0.2617 : ℝ) = 2617 / 10000 by norm_num, det_perspective_zero_aspect, zero_mul]
  · exact gvp_zero_width
